import Mathlib

/-!
# Shallow embedding of the lyrics-enrichment pipeline

This file embeds the core of `genius_lyrics_enrichment.py` (name
normalisation, lyric cleaning, the fetch layer and the main enrichment
loop) and the per-row scoring function of `emotion_scorer_roberta.py`,
and proves the behavioural claims made by the specification.

Python strings are modelled as `List Char`; a Python value that may fail
an `isinstance(x, str)` check is modelled as `Option (List Char)`
(`none` for any non-string value).  Fallible collaborator calls are
modelled as explicit result values.
-/

/-- The Python whitespace characters recognised by `str.strip` /
`str.split()` on ASCII text. -/
def pyIsSpace (c : Char) : Bool :=
  c = ' ' || c = '\t' || c = '\n' || c = '\r' ||
  c = Char.ofNat 11 || c = Char.ofNat 12

/-- Python `s.strip()`: drop leading and trailing whitespace. -/
def pyStrip (s : List Char) : List Char :=
  ((s.dropWhile pyIsSpace).reverse.dropWhile pyIsSpace).reverse

/-- Worker for `wsSplit`: `cur` is the (reversed) token being gathered. -/
def wsSplitAux (cur : List Char) : List Char → List (List Char)
  | [] => if cur.isEmpty then [] else [cur.reverse]
  | c :: rest =>
    if pyIsSpace c then
      if cur.isEmpty then wsSplitAux [] rest
      else cur.reverse :: wsSplitAux [] rest
    else wsSplitAux (c :: cur) rest

/-- Python `s.split()` (no separator): split on runs of whitespace,
never producing empty tokens. -/
def wsSplit (s : List Char) : List (List Char) :=
  wsSplitAux [] s

/-- Python `" ".join(tokens)`. -/
def joinSpace : List (List Char) → List Char
  | [] => []
  | [t] => t
  | t :: ts => t ++ ' ' :: joinSpace ts

/-- Python `" ".join(s.split()).strip()`: collapse repeated whitespace
to single spaces and trim. -/
def collapseWs (s : List Char) : List Char :=
  pyStrip (joinSpace (wsSplit s))

/-- Python `sep in s`: does `sep` occur as a contiguous substring? -/
def containsSub (sep : List Char) : List Char → Bool
  | [] => sep.isEmpty
  | c :: s => sep.isPrefixOf (c :: s) || containsSub sep s

/-- Python `s.split(sep)[0]` for non-empty `sep`: the prefix of `s`
before the first occurrence of `sep` (all of `s` when `sep` does not
occur). -/
def splitHead (sep : List Char) : List Char → List Char
  | [] => []
  | c :: s => if sep.isPrefixOf (c :: s) then [] else c :: splitHead sep s

/-- Python `s.split(sep, 1)[1]` when `sep` occurs in `s`: everything
after the first occurrence of `sep`. -/
def splitTail1 (sep : List Char) : List Char → List Char
  | [] => []
  | c :: s => if sep.isPrefixOf (c :: s) then (c :: s).drop sep.length
              else splitTail1 sep s

/-- Python `s.find(sep)`: index of the first occurrence of `sep`
(`none` models the return value `-1`). -/
def pyFind (sep : List Char) : List Char → Option Nat
  | [] => if sep.isEmpty then some 0 else none
  | c :: s => if sep.isPrefixOf (c :: s) then some 0
              else (pyFind sep s).map (· + 1)

/-- Lines 73-77 of `clean_track_title`: the truncation position, the
minimum over the found indices of `"("` and `"-"`, defaulting to the
length of the title. -/
def title_cut_pos (title : List Char) : Nat :=
  [String.toList "(", String.toList "-"].foldl
    (fun cp sep =>
      match pyFind sep title with
      | some idx => min cp idx
      | none => cp)
    title.length

/-- `clean_track_title` from `genius_lyrics_enrichment.py`: truncate at
the earliest `(` or `-`, strip, and fall back to the stripped full
title when the stripped truncation is empty.  A non-string input
(`none`) yields the empty string. -/
def clean_track_title : Option (List Char) → List Char
  | none => []
  | some title =>
    let t := pyStrip (title.take (title_cut_pos title))
    if t.isEmpty then pyStrip title else t

/-- The separator list of `clean_artist_name`, in source order. -/
def artistSeparators : List (List Char) :=
  [String.toList ",", String.toList "&", String.toList "feat.",
   String.toList "ft."]

/-- `clean_artist_name` from `genius_lyrics_enrichment.py`: for each
separator in order, if it occurs in the current string, keep only the
part before its first occurrence; finally collapse whitespace.  A
non-string input yields the empty string. -/
def clean_artist_name : Option (List Char) → List Char
  | none => []
  | some artist =>
    collapseWs (artistSeparators.foldl
      (fun a sep => if containsSub sep a then splitHead sep a else a)
      artist)

/-- Modelled from the spec (§4.1 `normalize_artist`): split on the
FIRST separator (in the priority order `,`, `&`, `feat.`, `ft.`) that
occurs anywhere in the string, taking the substring before its first
occurrence, and apply no further separator; then collapse whitespace
and trim. -/
def normalize_artist_spec : Option (List Char) → List Char
  | none => []
  | some artist =>
    collapseWs (match artistSeparators.find? (fun sep => containsSub sep artist) with
      | some sep => splitHead sep artist
      | none => artist)

/-- Modelled from the spec (§4.1 `normalize_title`): truncate at the
earliest position where `(` or `-` occurs, trim, and fall back to the
trimmed full title when that is empty. -/
def normalize_title_spec (title : List Char) : List Char :=
  let t := pyStrip (title.takeWhile (fun c => !(c = '(' || c = '-')))
  if t.isEmpty then pyStrip title else t

/-- Banner removal (lines 100-102 of `clean_lyrics`): when the literal
`"<track_name> Lyrics"` occurs in the text, keep only what follows its
first occurrence. -/
def bannerRemoval (track_name text : List Char) : List Char :=
  let search_term := track_name ++ String.toList " Lyrics"
  if containsSub search_term text then splitTail1 search_term text else text

/-- `re.sub(r"\d*Embed$", "", text)` (line 105): remove a trailing
`Embed` together with the maximal digit run immediately before it.
The regex `$` also matches just before a final newline, so a trailing
newline is peeled off, the pattern removed before it, and the newline
kept. -/
def embedRemoval (text : List Char) : List Char :=
  let hasNl := text.getLast? = some '\n'
  let body := if hasNl then text.dropLast else text
  let tl : List Char := if hasNl then ['\n'] else []
  if (String.toList "Embed").isSuffixOf body then
    ((body.take (body.length - 5)).reverse.dropWhile Char.isDigit).reverse ++ tl
  else text

/-- For `removeBrackets`: the index of the first `]` in the list,
provided no newline comes before it (regex `.` does not match a
newline, so a bracket pair containing one is not matched). -/
def bracketSpan : List Char → Option Nat
  | [] => none
  | c :: s =>
    if c = ']' then some 0
    else if c = '\n' then none
    else (bracketSpan s).map (· + 1)

/-- Worker for `bracketRemoval`.  Every step consumes at least one
character of the list and one unit of fuel, so fuel equal to the list
length suffices; the fuel argument only makes the recursion structural
(and hence reducible by the kernel). -/
def bracketRemovalAux : Nat → List Char → List Char
  | 0, s => s
  | _ + 1, [] => []
  | fuel + 1, c :: s =>
    if c = '[' then
      match bracketSpan s with
      | some k => bracketRemovalAux fuel (s.drop (k + 1))
      | none => c :: bracketRemovalAux fuel s
    else c :: bracketRemovalAux fuel s

/-- `re.sub(r"\[.*?\]", "", text)` (line 108): delete every section
marker `[...]`, non-greedily, scanning left to right. -/
def bracketRemoval (s : List Char) : List Char :=
  bracketRemovalAux s.length s

/-- `clean_lyrics` from `genius_lyrics_enrichment.py`: on empty text
return empty; otherwise remove the title banner, then the trailing
embed artifact, then all bracketed section markers, and finally strip
surrounding whitespace. -/
def clean_lyrics (text track_name : List Char) : List Char :=
  if text.isEmpty then []
  else pyStrip (bracketRemoval (embedRemoval (bannerRemoval track_name text)))

/-- A provider match object, exposing a lyrics text field
(`song.lyrics`; a `None` lyrics field is modelled as the empty text,
which the fetch layer treats identically). -/
structure Song where
  lyrics : List Char
deriving DecidableEq

/-- Outcome of one `genius.search_song` call: a normal return of an
optional match, or a raised exception. -/
inductive ProviderResult where
  | ok : Option Song → ProviderResult
  | exn : ProviderResult
deriving DecidableEq

/-- A provider: a search keyed on the cleaned title and the cleaned
artist (or `none` when the cleaned artist is empty). -/
abbrev Provider := List Char → Option (List Char) → ProviderResult

/-- The provider search issued at line 132:
`genius.search_song(clean_title, clean_artist or None)`. -/
def provider_query (provider : Provider)
    (title artist : Option (List Char)) : ProviderResult :=
  provider (clean_track_title title)
    (if (clean_artist_name artist).isEmpty then none
     else some (clean_artist_name artist))

/-- `fetch_lyrics` from `genius_lyrics_enrichment.py`, instrumented
with the number of provider calls issued.  Returns `none` for a miss
(the spec's `Missing`) and `some text` for the spec's `Found(text)`;
a provider exception is caught and converted to a miss. -/
def fetch_lyrics_traced (provider : Provider)
    (title artist : Option (List Char)) : Option (List Char) × Nat :=
  let clean_title := clean_track_title title
  if clean_title.isEmpty then (none, 0)
  else
    match provider_query provider title artist with
    | .exn => (none, 1)
    | .ok none => (none, 1)
    | .ok (some song) =>
      if song.lyrics.isEmpty then (none, 1)
      else
        let lyrics := clean_lyrics song.lyrics clean_title
        (if lyrics.isEmpty then none else some lyrics, 1)

/-- The result component of `fetch_lyrics`. -/
def fetch_lyrics (provider : Provider)
    (title artist : Option (List Char)) : Option (List Char) :=
  (fetch_lyrics_traced provider title artist).1

/-- A cell of the tabular dataset: a string, a null / non-string value,
or a number (arbitrary passthrough data). -/
inductive Cell where
  | str : List Char → Cell
  | null : Cell
  | num : ℚ → Cell
deriving DecidableEq

/-- An input or output row: an association list from column name to
cell value. -/
abbrev Row := List (String × Cell)

/-- The tabular dataset (the pandas dataframe): column names plus the
rows in order. -/
structure DataFrame where
  cols : List String
  rows : List Row
deriving DecidableEq

/-- `row[col]` on a row. -/
def getCell (r : Row) (col : String) : Cell :=
  (r.lookup col).getD Cell.null

/-- The `isinstance(x, str)` view of a cell: `some` for a string cell,
`none` for anything else. -/
def cellStr : Cell → Option (List Char)
  | .str s => some s
  | _ => none

/-- Python dict / pandas column assignment `d[k] = v`: update the value
in place when the key is present, append it at the end otherwise. -/
def assocSet {α : Type} (d : List (String × α)) (k : String) (v : α) :
    List (String × α) :=
  if d.any (fun p => p.1 = k) then
    d.map (fun p => if p.1 = k then (k, v) else p)
  else d ++ [(k, v)]

/-- Encoding of one fetch outcome as the cell stored in the `lyrics`
column: `Found(text)` becomes the text, `Missing` becomes null. -/
def optCell : Option (List Char) → Cell
  | some s => .str s
  | none => .null

/-- `MIN_DELAY` (line 26). -/
def MIN_DELAY : ℚ := 1

/-- `MAX_DELAY` (line 27). -/
def MAX_DELAY : ℚ := 3 / 2

/-- Observable side effects of the enrichment loop, in order: one
`fetchRow` per call of the fetch layer, and one `sleep lo hi` per
`time.sleep(random.uniform(lo, hi))` politeness delay. -/
inductive Event where
  | fetchRow : Event
  | sleep : ℚ → ℚ → Event
deriving DecidableEq

/-- The per-row loop of `main` (lines 171-178): for each row in order,
fetch lyrics for its title/artist cells, then sleep for a delay drawn
from `[MIN_DELAY, MAX_DELAY]`.  Returns the accumulated lyrics list
and the event trace. -/
def enrich_rows (provider : Provider) (track_col artist_col : String) :
    List Row → List (Option (List Char)) × List Event
  | [] => ([], [])
  | row :: rest =>
    let lyrics := fetch_lyrics provider
      (cellStr (getCell row track_col)) (cellStr (getCell row artist_col))
    let r := enrich_rows provider track_col artist_col rest
    (lyrics :: r.1, Event.fetchRow :: Event.sleep MIN_DELAY MAX_DELAY :: r.2)

/-- The fatal startup errors of `main`: missing input file (line 152),
fewer than two columns (line 158), missing `GENIUS_ACCESS_TOKEN`
(lines 51-55, raised from `authenticate_genius` called at line 167). -/
inductive MainError where
  | fileNotFound
  | valueError
  | envError
deriving DecidableEq

/-- Column identification of line 161: `track_name` when present,
otherwise the first column. -/
def mainTrackCol (df : DataFrame) : String :=
  if "track_name" ∈ df.cols then "track_name" else df.cols.headD ""

/-- Column identification of line 162: `artist_names` when present,
otherwise the second column. -/
def mainArtistCol (df : DataFrame) : String :=
  if "artist_names" ∈ df.cols then "artist_names"
  else (df.cols.drop 1).headD ""

/-- `main` of `genius_lyrics_enrichment.py`, with its collaborators
made explicit: whether the input file exists, the loaded dataframe,
the `GENIUS_ACCESS_TOKEN` environment variable (`none` when unset),
and the provider.  Returns the outcome (output dataframe or fatal
error) together with the event trace of the enrichment loop. -/
def main_run (input_exists : Bool) (df : DataFrame)
    (token : Option (List Char)) (provider : Provider) :
    Except MainError DataFrame × List Event :=
  if !input_exists then (.error .fileNotFound, [])
  else if df.cols.length < 2 then (.error .valueError, [])
  else if (token.getD []).isEmpty then (.error .envError, [])
  else
    let r := enrich_rows provider (mainTrackCol df) (mainArtistCol df) df.rows
    (.ok { cols := if "lyrics" ∈ df.cols then df.cols
                   else df.cols ++ ["lyrics"],
           rows := df.rows.zipWith
             (fun row l => assocSet row "lyrics" (optCell l)) r.1 },
     r.2)

/-- `EMOTION_LABELS` of `emotion_scorer_roberta.py` (lines 23-26). -/
def EMOTION_LABELS : List String :=
  ["anger", "disgust", "fear", "joy", "neutral", "sadness", "surprise"]

/-- The row of null scores returned on the short-circuit and failure
paths of `analyze_emotions` (lines 43 and 64). -/
def nullScores : List (String × Option ℚ) :=
  EMOTION_LABELS.map (fun e => ("score_" ++ e, none))

/-- The default score row of the success path (line 53): every label
of the fixed set starts at `0.0`. -/
def initScores : List (String × Option ℚ) :=
  EMOTION_LABELS.map (fun e => ("score_" ++ e, some (0 : ℚ)))

/-- Python `s.lower()` on ASCII text. -/
def lowerStr (s : String) : String :=
  String.mk (s.data.map Char.toLower)

/-- One iteration of the classifier-result loop (lines 55-58): write
the score of a result whose lowercased label is in the fixed label
set; ignore any other label. -/
def scoreStep (sc : List (String × Option ℚ)) (r : String × ℚ) :
    List (String × Option ℚ) :=
  if lowerStr r.1 ∈ EMOTION_LABELS then
    assocSet sc ("score_" ++ lowerStr r.1) (some r.2)
  else sc

/-- The classifier-result loop of `analyze_emotions` (lines 53-58):
starting from the defaults, fold `scoreStep` over the results. -/
def scoresFromResults (results : List (String × ℚ)) :
    List (String × Option ℚ) :=
  results.foldl scoreStep initScores

/-- A classifier call: returns label/score pairs or raises. -/
abbrev Classifier := List Char → Except Unit (List (String × ℚ))

/-- `analyze_emotions` of `emotion_scorer_roberta.py`, instrumented
with the number of classifier calls.  A non-string (`none`) or
whitespace-only text short-circuits to null scores without calling
the classifier; a classifier exception degrades to null scores. -/
def analyze_emotions_traced (classifier : Classifier)
    (text : Option (List Char)) : List (String × Option ℚ) × Nat :=
  match text with
  | none => (nullScores, 0)
  | some t =>
    if (pyStrip t).isEmpty then (nullScores, 0)
    else
      match classifier t with
      | .error _ => (nullScores, 1)
      | .ok results => (scoresFromResults results, 1)

/-- The result component of `analyze_emotions`. -/
def analyze_emotions (classifier : Classifier)
    (text : Option (List Char)) : List (String × Option ℚ) :=
  (analyze_emotions_traced classifier text).1

/-- A Boolean test for delay events, for counting them in a trace. -/
def Event.isSleep : Event → Bool
  | .sleep _ _ => true
  | _ => false

/-- A Boolean test for fetch events, for counting them in a trace. -/
def Event.isFetch : Event → Bool
  | .fetchRow => true
  | _ => false

/-- A stub provider whose match carries a banner, a section marker and
an embed artifact (the end-to-end scenario of spec §8). -/
def stubProviderFound : Provider :=
  fun _ _ => .ok (some ⟨String.toList "Hello Lyrics[Intro]La la la123Embed"⟩)

/-- A stub provider that never matches. -/
def stubProviderNone : Provider := fun _ _ => .ok none

/-- A stub classifier that always raises. -/
def stubClassifierErr : Classifier := fun _ => .error ()

/-- A stub classifier returning one in-set label (upper-cased, as the
model emits them) and one out-of-set label. -/
def stubClassifierJoy : Classifier :=
  fun _ => .ok [("JOY", (7 : ℚ) / 10), ("weird", (1 : ℚ) / 10)]

/-- A two-row input table: the end-to-end scenario of spec §8 plus a
numeric passthrough column. -/
def dfTest : DataFrame :=
  { cols := ["track_name", "artist_names", "year"],
    rows := [[("track_name", Cell.str (String.toList "Hello (Live)")),
              ("artist_names", Cell.str (String.toList "A, B")),
              ("year", Cell.num 2025)],
             [("track_name", Cell.str (String.toList "")),
              ("artist_names", Cell.str (String.toList "C")),
              ("year", Cell.num 2024)]] }

/-! ## Helper lemmas -/

theorem splitHead_of_not_contains (sep : List Char) :
    ∀ a : List Char, containsSub sep a = false → splitHead sep a = a
  | [], _ => rfl
  | c :: s, h => by
    simp only [containsSub, Bool.or_eq_false_iff] at h
    simp only [splitHead, h.1, Bool.false_eq_true, if_false]
    rw [splitHead_of_not_contains sep s h.2]

theorem guardedSplitHead_eq (sep a : List Char) :
    (if containsSub sep a then splitHead sep a else a) = splitHead sep a := by
  cases h : containsSub sep a
  · simp [splitHead_of_not_contains sep a h]
  · simp

/-! ## Claims about the artist normaliser -/

/-- C1, counterexample.  The claim states that only the first
separator (in the priority order `,`, `&`, `feat.`, `ft.`) found in
the string is applied, so that an input holding both a `&` and a later
`,` would keep its prefix up to the comma, here `A & B`.  The code
instead applies every separator in turn and returns `A`. -/
theorem clean_artist_name_single_separator_false :
    normalize_artist_spec (some (String.toList "A & B, C")) =
      String.toList "A & B" ∧
    clean_artist_name (some (String.toList "A & B, C")) = String.toList "A" ∧
    clean_artist_name (some (String.toList "A & B, C")) ≠
      normalize_artist_spec (some (String.toList "A & B, C")) :=
  ⟨by decide, by decide, by decide⟩

/-- C1, amended.  `clean_artist_name` applies EVERY separator of
`,`, `&`, `feat.`, `ft.`, in that fixed order, each one truncating the
current (possibly already truncated) string at the first occurrence of
that separator; the result is then whitespace-collapsed and trimmed.
The spec's examples hold, as does the empty/non-string case. -/
theorem clean_artist_name_applies_every_separator :
    clean_artist_name none = [] ∧
    (∀ s : List Char, clean_artist_name (some s) =
      collapseWs (splitHead (String.toList "ft.")
        (splitHead (String.toList "feat.")
          (splitHead (String.toList "&")
            (splitHead (String.toList ",") s))))) ∧
    clean_artist_name (some (String.toList "Artist A, Artist B")) =
      String.toList "Artist A" ∧
    clean_artist_name (some (String.toList "Artist A feat. Artist B")) =
      String.toList "Artist A" ∧
    clean_artist_name (some (String.toList "")) = [] := by
  refine ⟨rfl, ?_, by decide, by decide, rfl⟩
  intro s
  simp only [clean_artist_name, artistSeparators, List.foldl_cons, List.foldl_nil,
    guardedSplitHead_eq]

def optMin (cp : Nat) : Option Nat → Nat
  | some idx => min cp idx
  | none => cp

theorem title_cut_pos_as_optMin (t : List Char) :
    title_cut_pos t = optMin (optMin t.length (pyFind ['('] t)) (pyFind ['-'] t) := by
  rfl

theorem optMin_zero (o : Option Nat) : optMin 0 o = 0 := by
  cases o <;> simp [optMin]

theorem optMin_some_zero (cp : Nat) : optMin cp (some 0) = 0 := by
  simp [optMin]

theorem optMin_succ (a : Nat) (o : Option Nat) :
    optMin (a + 1) (o.map (· + 1)) = optMin a o + 1 := by
  cases o <;> simp [optMin, Nat.succ_min_succ]

theorem pyFind_single_cons (x c : Char) (s : List Char) :
    pyFind [x] (c :: s) = if c = x then some 0 else (pyFind [x] s).map (· + 1) := by
  simp only [pyFind, List.isPrefixOf, Bool.and_true]
  by_cases h : c = x
  · simp [h]
  · simp [h, Ne.symm h]

theorem title_cut_pos_eq (s : List Char) :
    title_cut_pos s = (s.takeWhile (fun c => !(c = '(' || c = '-'))).length := by
  induction s with
  | nil => rfl
  | cons c s ih =>
    rw [title_cut_pos_as_optMin, pyFind_single_cons, pyFind_single_cons,
      List.takeWhile_cons]
    rw [title_cut_pos_as_optMin] at ih
    by_cases h1 : c = '('
    · rw [if_pos h1, optMin_some_zero, optMin_zero]
      simp [h1]
    · by_cases h2 : c = '-'
      · rw [if_neg h1, if_pos h2, optMin_some_zero]
        simp [h2]
      · rw [if_neg h1, if_neg h2, List.length_cons, optMin_succ, optMin_succ, ih]
        simp [h1, h2]

theorem take_length_takeWhile {α : Type} (p : α → Bool) (s : List α) :
    s.take ((s.takeWhile p).length) = s.takeWhile p := by
  induction s with
  | nil => rfl
  | cons c s ih =>
    rw [List.takeWhile_cons]
    by_cases h : p c <;> simp [h, ih]

/-- C5.  `clean_track_title` returns the empty string on a non-string
input; otherwise it truncates at the earliest occurrence of `(` or
`-`, trims, and falls back to the full trimmed title when the trimmed
truncation is empty — i.e. it agrees everywhere with the direct
one-scan spec reading `normalize_title_spec`; the spec's three
examples hold. -/
theorem clean_track_title_matches_spec :
    clean_track_title none = [] ∧
    (∀ s : List Char, clean_track_title (some s) = normalize_title_spec s) ∧
    clean_track_title (some (String.toList "Song (Remastered 2011)")) =
      String.toList "Song" ∧
    clean_track_title (some (String.toList "Song - Live")) =
      String.toList "Song" ∧
    clean_track_title (some (String.toList "   ")) = [] := by
  refine ⟨rfl, ?_, by decide, by decide, by decide⟩
  intro s
  simp only [clean_track_title, normalize_title_spec, title_cut_pos_eq,
    take_length_takeWhile]

/-- C4.  `clean_lyrics` applies its steps in the fixed order banner
removal, embed-artifact removal, bracketed-section removal, trim; the
spec's example evaluates to `"Some words"`; and on a banner containing
a bracket-like token the order is observable: removing brackets first
would destroy the banner and change the output. -/
theorem clean_lyrics_step_order :
    clean_lyrics (String.toList "Song Title Lyrics[Verse]Some words123Embed")
      (String.toList "Song Title") = String.toList "Some words" ∧
    (∀ text track_name : List Char, text ≠ [] →
      clean_lyrics text track_name =
        pyStrip (bracketRemoval (embedRemoval (bannerRemoval track_name text)))) ∧
    clean_lyrics (String.toList "T [x] Lyricsbody") (String.toList "T [x]") =
      String.toList "body" ∧
    pyStrip (bannerRemoval (String.toList "T [x]")
        (bracketRemoval (embedRemoval (String.toList "T [x] Lyricsbody")))) =
      String.toList "T  Lyricsbody" := by
  refine ⟨by decide, ?_, by decide, by decide⟩
  intro text track h
  rw [clean_lyrics, if_neg]
  simp [h]

theorem clean_lyrics_step_order_witness :
    (String.toList "T [x] Lyricsbody" ≠ []) ∧
    clean_lyrics (String.toList "T [x] Lyricsbody") (String.toList "T [x]") =
      pyStrip (bracketRemoval (embedRemoval
        (bannerRemoval (String.toList "T [x]") (String.toList "T [x] Lyricsbody")))) :=
  ⟨by decide, clean_lyrics_step_order.2.1 _ _ (by decide)⟩

/-- C2.  When a query is issued (non-empty normalized title),
`fetch_lyrics` returns `Missing` (`none`) exactly when the provider
search raises, returns no match, returns a match with empty lyrics, or
the cleaned text is empty; in all remaining cases it returns
`Found(cleaned_text)` with the text cleaned by `clean_lyrics` under
the normalized title.  A provider exception is absorbed here: the
model maps the `exn` outcome to `none` rather than propagating it. -/
theorem fetch_lyrics_missing_iff (provider : Provider)
    (title artist : Option (List Char))
    (h : clean_track_title title ≠ []) :
    (fetch_lyrics provider title artist = none ↔
      provider_query provider title artist = .exn ∨
      provider_query provider title artist = .ok none ∨
      ∃ song, provider_query provider title artist = .ok (some song) ∧
        (song.lyrics = [] ∨
         clean_lyrics song.lyrics (clean_track_title title) = [])) ∧
    ∀ song, provider_query provider title artist = .ok (some song) →
      song.lyrics ≠ [] →
      clean_lyrics song.lyrics (clean_track_title title) ≠ [] →
      fetch_lyrics provider title artist =
        some (clean_lyrics song.lyrics (clean_track_title title)) := by
  have hne : (clean_track_title title).isEmpty = false := by
    simpa [List.isEmpty_iff] using h
  constructor
  · rw [fetch_lyrics, fetch_lyrics_traced]
    simp only [hne, Bool.false_eq_true, if_false]
    cases hq : provider_query provider title artist with
    | exn => simp
    | ok o =>
      cases o with
      | none => simp
      | some song =>
        by_cases hl : song.lyrics = []
        · simp [hl]
        · have hl2 : song.lyrics.isEmpty = false := by simpa [List.isEmpty_iff] using hl
          by_cases hc : clean_lyrics song.lyrics (clean_track_title title) = []
          · simp [hl2, hc, hl]
          · have hc2 : (clean_lyrics song.lyrics (clean_track_title title)).isEmpty = false := by
              simpa [List.isEmpty_iff] using hc
            simp [hl2, hc2, hl, hc]
  · intro song hq hl hc
    have hl2 : song.lyrics.isEmpty = false := by simpa [List.isEmpty_iff] using hl
    have hc2 : (clean_lyrics song.lyrics (clean_track_title title)).isEmpty = false := by
      simpa [List.isEmpty_iff] using hc
    rw [fetch_lyrics, fetch_lyrics_traced]
    simp [hne, hq, hl2, hc2]

theorem fetch_lyrics_missing_iff_witness :
    clean_track_title (some (String.toList "Hello (Live)")) ≠ [] ∧
    ((fetch_lyrics stubProviderFound (some (String.toList "Hello (Live)"))
        (some (String.toList "A, B")) = none ↔
      provider_query stubProviderFound (some (String.toList "Hello (Live)"))
          (some (String.toList "A, B")) = .exn ∨
      provider_query stubProviderFound (some (String.toList "Hello (Live)"))
          (some (String.toList "A, B")) = .ok none ∨
      ∃ song, provider_query stubProviderFound (some (String.toList "Hello (Live)"))
            (some (String.toList "A, B")) = .ok (some song) ∧
          (song.lyrics = [] ∨
           clean_lyrics song.lyrics
             (clean_track_title (some (String.toList "Hello (Live)"))) = [])) ∧
     ∀ song, provider_query stubProviderFound (some (String.toList "Hello (Live)"))
          (some (String.toList "A, B")) = .ok (some song) →
        song.lyrics ≠ [] →
        clean_lyrics song.lyrics
          (clean_track_title (some (String.toList "Hello (Live)"))) ≠ [] →
        fetch_lyrics stubProviderFound (some (String.toList "Hello (Live)"))
            (some (String.toList "A, B")) =
          some (clean_lyrics song.lyrics
            (clean_track_title (some (String.toList "Hello (Live)"))))) :=
  ⟨by decide, fetch_lyrics_missing_iff stubProviderFound _ _ (by decide)⟩

/-- C6.  When the normalized title is empty, `fetch_lyrics` returns
`Missing` and issues zero provider calls. -/
theorem fetch_lyrics_empty_title_no_call (provider : Provider)
    (title artist : Option (List Char))
    (h : clean_track_title title = []) :
    fetch_lyrics_traced provider title artist = (none, 0) := by
  rw [fetch_lyrics_traced]
  simp [h]

theorem fetch_lyrics_empty_title_no_call_witness :
    clean_track_title (some (String.toList "   ")) = [] ∧
    fetch_lyrics_traced stubProviderFound (some (String.toList "   "))
      (some (String.toList "C")) = (none, 0) :=
  ⟨by decide, fetch_lyrics_empty_title_no_call stubProviderFound _ _ (by decide)⟩

/-- C8.  When the provider credential is absent (`GENIUS_ACCESS_TOKEN`
unset), the run fails at startup with the fatal configuration error:
the result is the `envError` exception, and the event trace is empty —
no per-row iteration, no fetch and no delay ever happens. -/
theorem missing_token_fatal (df : DataFrame) (provider : Provider)
    (h2 : 2 ≤ df.cols.length) :
    main_run true df none provider = (.error .envError, []) := by
  rw [main_run]
  simp [Nat.not_lt.mpr h2]

theorem missing_token_fatal_witness :
    2 ≤ dfTest.cols.length ∧
    main_run true dfTest none stubProviderNone = (.error .envError, []) :=
  ⟨by decide, missing_token_fatal dfTest stubProviderNone (by decide)⟩

theorem zipWith_map_self {α β γ : Type} (f : α → β → γ) (g : α → β) (l : List α) :
    List.zipWith f l (l.map g) = l.map (fun a => f a (g a)) := by
  induction l with
  | nil => rfl
  | cons a l ih => simp [ih]

theorem lookup_eq_none_of_not_any {α : Type} (d : List (String × α)) (k : String)
    (h : d.any (fun p => p.1 = k) = false) : d.lookup k = none := by
  induction d with
  | nil => rfl
  | cons p d ih =>
    simp only [List.any_cons, Bool.or_eq_false_iff, decide_eq_false_iff_not] at h
    cases p with
    | mk a b =>
      have hb : (k == a) = false := beq_eq_false_iff_ne.mpr (fun e => h.1 e.symm)
      simp [List.lookup, hb, ih h.2]

theorem lookup_map_set_self {α : Type} (d : List (String × α)) (k : String) (v : α)
    (h : d.any (fun p => p.1 = k) = true) :
    (d.map (fun p => if p.1 = k then (k, v) else p)).lookup k = some v := by
  induction d with
  | nil => simp at h
  | cons p d ih =>
    cases p with
    | mk a b =>
      by_cases hp : a = k
      · subst hp
        simp only [List.map_cons]
        simp only [if_true, eq_self_iff_true]
        simp [List.lookup]
      · have h2 : d.any (fun p => p.1 = k) = true := by
          simp only [List.any_cons, Bool.or_eq_true_iff, decide_eq_true_eq] at h
          rcases h with h | h
          · exact absurd h hp
          · exact h
        have hb : (k == a) = false := beq_eq_false_iff_ne.mpr (Ne.symm hp)
        simp only [List.map_cons]
        rw [if_neg (by simpa using hp)]
        simp [List.lookup, hb, ih h2]

theorem lookup_map_set_ne {α : Type} (d : List (String × α)) (k k' : String) (v : α)
    (hne : k' ≠ k) :
    (d.map (fun p => if p.1 = k then (k, v) else p)).lookup k' = d.lookup k' := by
  induction d with
  | nil => rfl
  | cons p d ih =>
    cases p with
    | mk a b =>
      by_cases hp : a = k
      · have hb : (k' == k) = false := beq_eq_false_iff_ne.mpr hne
        have hb2 : (k' == a) = false := beq_eq_false_iff_ne.mpr (hp ▸ hne)
        simp only [List.map_cons]
        rw [if_pos (by simpa using hp)]
        simp [List.lookup, hb, hb2, ih]
      · simp only [List.map_cons]
        rw [if_neg (by simpa using hp)]
        by_cases he : k' = a
        · simp [List.lookup, he]
        · have hb : (k' == a) = false := beq_eq_false_iff_ne.mpr he
          simp [List.lookup, hb, ih]

theorem lookup_assocSet {α : Type} (d : List (String × α)) (k k' : String) (v : α) :
    (assocSet d k v).lookup k' = if k' = k then some v else d.lookup k' := by
  rw [assocSet]
  cases hany : d.any (fun p => p.1 = k) with
  | true =>
    rw [if_pos rfl]
    by_cases hk : k' = k
    · subst hk
      simp [lookup_map_set_self d k' v hany]
    · simp [hk, lookup_map_set_ne d k k' v hk]
  | false =>
    rw [if_neg (by simp [hany])]
    have hnone : d.lookup k = none := lookup_eq_none_of_not_any d k hany
    by_cases hk : k' = k
    · subst hk
      simp [List.lookup_append, hnone, List.lookup]
    · have hb : (k' == k) = false := beq_eq_false_iff_ne.mpr hk
      simp [hk, List.lookup_append, List.lookup, hb]

theorem enrich_rows_fst (provider : Provider) (tc ac : String) (rows : List Row) :
    (enrich_rows provider tc ac rows).1 =
      rows.map (fun row => fetch_lyrics provider
        (cellStr (getCell row tc)) (cellStr (getCell row ac))) := by
  induction rows with
  | nil => rfl
  | cons r rows ih => simp [enrich_rows, ih]

theorem enrich_rows_snd (provider : Provider) (tc ac : String) (rows : List Row) :
    (enrich_rows provider tc ac rows).2 =
      (rows.map (fun _ => [Event.fetchRow, Event.sleep MIN_DELAY MAX_DELAY])).flatten := by
  induction rows with
  | nil => rfl
  | cons r rows ih => simp [enrich_rows, ih]

/-- C3.  Over any N-row input reaching the enrichment loop, `main`
produces exactly N output rows in input order: row i of the output is
row i of the input with only the `lyrics` column assigned; every other
column lookup is unchanged; and the `lyrics` cell holds the fetched
text when the i-th fetch returned `Found(text)` and null exactly when
it returned `Missing`. -/
theorem run_preserves_rows (provider : Provider) (df : DataFrame)
    (token : Option (List Char))
    (h2 : 2 ≤ df.cols.length) (htok : token.getD [] ≠ []) :
    ∃ out : DataFrame,
      (main_run true df token provider).1 = Except.ok out ∧
      out.rows.length = df.rows.length ∧
      (∀ i : Nat, ∀ row : Row, df.rows[i]? = some row →
        out.rows[i]? = some (assocSet row "lyrics" (optCell (fetch_lyrics provider
          (cellStr (getCell row (mainTrackCol df)))
          (cellStr (getCell row (mainArtistCol df))))))) ∧
      (∀ i : Nat, ∀ rin rout : Row,
        df.rows[i]? = some rin → out.rows[i]? = some rout →
        (∀ c : String, c ≠ "lyrics" → rout.lookup c = rin.lookup c) ∧
        (rout.lookup "lyrics" = some Cell.null ↔
          fetch_lyrics provider (cellStr (getCell rin (mainTrackCol df)))
            (cellStr (getCell rin (mainArtistCol df))) = none) ∧
        (∀ text : List Char,
          fetch_lyrics provider (cellStr (getCell rin (mainTrackCol df)))
            (cellStr (getCell rin (mainArtistCol df))) = some text →
          rout.lookup "lyrics" = some (Cell.str text))) := by
  have hrun : (main_run true df token provider).1 = Except.ok
      { cols := if "lyrics" ∈ df.cols then df.cols else df.cols ++ ["lyrics"],
        rows := df.rows.map (fun row => assocSet row "lyrics"
          (optCell (fetch_lyrics provider
            (cellStr (getCell row (mainTrackCol df)))
            (cellStr (getCell row (mainArtistCol df)))))) } := by
    rw [main_run]
    rw [if_neg (by simp), if_neg (by simp [Nat.not_lt.mpr h2]),
      if_neg (by simpa [List.isEmpty_iff] using htok)]
    simp only [enrich_rows_fst, zipWith_map_self]
  refine ⟨_, hrun, by simp, ?_, ?_⟩
  · intro i row hrow
    simp [List.getElem?_map, hrow]
  · intro i rin rout hrin hrout
    simp only [List.getElem?_map, hrin, Option.map_some] at hrout
    have hr : rout = assocSet rin "lyrics" (optCell (fetch_lyrics provider
        (cellStr (getCell rin (mainTrackCol df)))
        (cellStr (getCell rin (mainArtistCol df))))) := by
      exact (Option.some.injEq .. ▸ hrout).symm
    subst hr
    refine ⟨?_, ?_, ?_⟩
    · intro c hc
      rw [lookup_assocSet, if_neg hc]
    · rw [lookup_assocSet, if_pos rfl]
      cases hfetch : fetch_lyrics provider (cellStr (getCell rin (mainTrackCol df)))
          (cellStr (getCell rin (mainArtistCol df))) <;>
        simp [optCell]
    · intro text hfetch
      rw [lookup_assocSet, if_pos rfl, hfetch]
      rfl

theorem run_preserves_rows_witness :
    2 ≤ dfTest.cols.length ∧
    ((some (String.toList "tok")).getD [] ≠ []) ∧
    (∃ out : DataFrame,
      (main_run true dfTest (some (String.toList "tok")) stubProviderFound).1 =
        Except.ok out ∧
      out.rows.length = dfTest.rows.length ∧
      (∀ i : Nat, ∀ row : Row, dfTest.rows[i]? = some row →
        out.rows[i]? = some (assocSet row "lyrics" (optCell (fetch_lyrics stubProviderFound
          (cellStr (getCell row (mainTrackCol dfTest)))
          (cellStr (getCell row (mainArtistCol dfTest))))))) ∧
      (∀ i : Nat, ∀ rin rout : Row,
        dfTest.rows[i]? = some rin → out.rows[i]? = some rout →
        (∀ c : String, c ≠ "lyrics" → rout.lookup c = rin.lookup c) ∧
        (rout.lookup "lyrics" = some Cell.null ↔
          fetch_lyrics stubProviderFound (cellStr (getCell rin (mainTrackCol dfTest)))
            (cellStr (getCell rin (mainArtistCol dfTest))) = none) ∧
        (∀ text : List Char,
          fetch_lyrics stubProviderFound (cellStr (getCell rin (mainTrackCol dfTest)))
            (cellStr (getCell rin (mainArtistCol dfTest))) = some text →
          rout.lookup "lyrics" = some (Cell.str text)))) :=
  ⟨by decide, by decide,
   run_preserves_rows stubProviderFound dfTest _ (by decide) (by decide)⟩

theorem enrich_trace_counts (provider : Provider) (tc ac : String) (rows : List Row) :
    (enrich_rows provider tc ac rows).2.countP Event.isSleep = rows.length ∧
    (enrich_rows provider tc ac rows).2.countP Event.isFetch = rows.length := by
  induction rows with
  | nil => exact ⟨rfl, rfl⟩
  | cons r rows ih =>
    simp [enrich_rows, List.countP_cons, ih.1, ih.2, Event.isSleep, Event.isFetch]

/-- C7.  Over an N-row input reaching the enrichment loop, the trace
is exactly N repetitions of a fetch immediately followed by one delay
drawn from the configured `[MIN_DELAY, MAX_DELAY]` interval — in
particular the number of delays equals the number of fetches equals N,
the delay follows every fetch including the last, and it happens
regardless of the fetch outcome. -/
theorem run_delay_after_each_fetch (provider : Provider) (df : DataFrame)
    (token : Option (List Char))
    (h2 : 2 ≤ df.cols.length) (htok : token.getD [] ≠ []) :
    (main_run true df token provider).2 =
      (df.rows.map (fun _ =>
        [Event.fetchRow, Event.sleep MIN_DELAY MAX_DELAY])).flatten ∧
    (main_run true df token provider).2.countP Event.isSleep = df.rows.length ∧
    (main_run true df token provider).2.countP Event.isFetch = df.rows.length := by
  have htr : (main_run true df token provider).2 =
      (enrich_rows provider (mainTrackCol df) (mainArtistCol df) df.rows).2 := by
    rw [main_run]
    rw [if_neg (by simp), if_neg (by simp [Nat.not_lt.mpr h2]),
      if_neg (by simpa [List.isEmpty_iff] using htok)]
  rw [htr, enrich_rows_snd]
  have hc := enrich_trace_counts provider (mainTrackCol df) (mainArtistCol df) df.rows
  rw [enrich_rows_snd] at hc
  exact ⟨rfl, hc.1, hc.2⟩

theorem run_delay_after_each_fetch_witness :
    2 ≤ dfTest.cols.length ∧
    ((some (String.toList "tok")).getD [] ≠ []) ∧
    ((main_run true dfTest (some (String.toList "tok")) stubProviderNone).2 =
      (dfTest.rows.map (fun _ =>
        [Event.fetchRow, Event.sleep MIN_DELAY MAX_DELAY])).flatten ∧
    (main_run true dfTest (some (String.toList "tok")) stubProviderNone).2.countP
        Event.isSleep = dfTest.rows.length ∧
    (main_run true dfTest (some (String.toList "tok")) stubProviderNone).2.countP
        Event.isFetch = dfTest.rows.length) :=
  ⟨by decide, by decide,
   run_delay_after_each_fetch stubProviderNone dfTest _ (by decide) (by decide)⟩

/-- C9.  The emotion scorer degrades per row: a non-string or
whitespace-only text yields the row of null scores with zero
classifier calls; a classifier exception yields the row of null scores
for that row (after its single call) instead of propagating; and every
value of the null-score row is null. -/
theorem analyze_emotions_degrades (classifier : Classifier) :
    analyze_emotions_traced classifier none = (nullScores, 0) ∧
    (∀ t : List Char, pyStrip t = [] →
      analyze_emotions_traced classifier (some t) = (nullScores, 0)) ∧
    (∀ t : List Char, pyStrip t ≠ [] → classifier t = .error () →
      analyze_emotions_traced classifier (some t) = (nullScores, 1)) ∧
    (∀ p : String × Option ℚ, p ∈ nullScores → p.2 = none) := by
  refine ⟨rfl, ?_, ?_, ?_⟩
  · intro t h
    rw [analyze_emotions_traced]
    simp [h]
  · intro t h he
    rw [analyze_emotions_traced]
    simp [List.isEmpty_iff, h, he]
  · intro p hp
    simp only [nullScores, List.mem_map] at hp
    rcases hp with ⟨e, _, he⟩
    rw [← he]

theorem analyze_emotions_degrades_witness :
    pyStrip (String.toList "  ") = [] ∧
    pyStrip (String.toList "la") ≠ [] ∧
    analyze_emotions_traced stubClassifierErr (some (String.toList "  ")) =
      (nullScores, 0) ∧
    analyze_emotions_traced stubClassifierErr (some (String.toList "la")) =
      (nullScores, 1) :=
  ⟨by decide, by decide,
   (analyze_emotions_degrades stubClassifierErr).2.1 _ (by decide),
   (analyze_emotions_degrades stubClassifierErr).2.2.1 _ (by decide) rfl⟩

theorem any_fst_eq_keys_any {α : Type} (d : List (String × α)) (k : String) :
    d.any (fun p => p.1 = k) = (d.map Prod.fst).any (fun a => a = k) := by
  induction d with
  | nil => rfl
  | cons p d ih => simp [ih]

theorem any_fst_eq_of_keys {α β : Type} (d1 : List (String × α))
    (d2 : List (String × β)) (k : String)
    (h : d1.map Prod.fst = d2.map Prod.fst) :
    d1.any (fun p => p.1 = k) = d2.any (fun p => p.1 = k) := by
  rw [any_fst_eq_keys_any, any_fst_eq_keys_any, h]

theorem keys_assocSet_of_any {α : Type} (d : List (String × α)) (k : String) (v : α)
    (h : d.any (fun p => p.1 = k) = true) :
    (assocSet d k v).map Prod.fst = d.map Prod.fst := by
  rw [assocSet, if_pos h, List.map_map]
  apply List.map_congr_left
  intro p _
  by_cases hp : p.1 = k
  · simp [Function.comp, hp]
  · simp [Function.comp, hp]

theorem keys_scoresFold (results : List (String × ℚ)) :
    ∀ init : List (String × Option ℚ),
      (∀ e ∈ EMOTION_LABELS, init.any (fun p => p.1 = "score_" ++ e) = true) →
      (results.foldl scoreStep init).map Prod.fst = init.map Prod.fst := by
  induction results with
  | nil => intro init _; rfl
  | cons r rs ih =>
    intro init hinit
    rw [List.foldl_cons, scoreStep]
    by_cases hr : lowerStr r.1 ∈ EMOTION_LABELS
    · rw [if_pos hr]
      have hany := hinit _ hr
      have hkeys := keys_assocSet_of_any init ("score_" ++ lowerStr r.1) (some r.2) hany
      rw [ih _ ?_, hkeys]
      intro e he
      rw [any_fst_eq_of_keys _ init _ hkeys]
      exact hinit e he
    · rw [if_neg hr]
      exact ih init hinit

theorem initScores_any (e : String) (he : e ∈ EMOTION_LABELS) :
    initScores.any (fun p => p.1 = "score_" ++ e) = true := by
  rw [List.any_eq_true]
  refine ⟨("score_" ++ e, some 0), List.mem_map.mpr ⟨e, he, rfl⟩, by simp⟩

theorem keys_scoresFromResults (results : List (String × ℚ)) :
    (scoresFromResults results).map Prod.fst =
      EMOTION_LABELS.map (fun e => "score_" ++ e) := by
  rw [scoresFromResults, keys_scoresFold results initScores initScores_any]
  simp [initScores, List.map_map, Function.comp]

theorem scoresFold_filter (results : List (String × ℚ)) :
    ∀ init : List (String × Option ℚ),
      results.foldl scoreStep init =
        (results.filter (fun r => lowerStr r.1 ∈ EMOTION_LABELS)).foldl
          scoreStep init := by
  induction results with
  | nil => intro _; rfl
  | cons r rs ih =>
    intro init
    rw [List.foldl_cons, List.filter_cons]
    by_cases hr : lowerStr r.1 ∈ EMOTION_LABELS
    · simp only [hr, decide_True, if_true, List.foldl_cons]
      exact ih _
    · simp only [hr, decide_False, Bool.false_eq_true, if_false]
      rw [scoreStep, if_neg hr]
      exact ih init

theorem score_key_inj {a b : String} (h : ("score_" ++ a : String) = "score_" ++ b) :
    a = b := by
  have hd := congrArg String.data h
  simp only [String.data_append] at hd
  exact String.ext (List.append_cancel_left hd)

theorem lookup_scoresFold_of_no_write (e : String)
    (results : List (String × ℚ)) (hno : ∀ r ∈ results, lowerStr r.1 ≠ e) :
    ∀ init : List (String × Option ℚ),
      (results.foldl scoreStep init).lookup ("score_" ++ e) =
        init.lookup ("score_" ++ e) := by
  induction results with
  | nil => intro _; rfl
  | cons r rs ih =>
    intro init
    rw [List.foldl_cons, scoreStep]
    have hr := hno r (List.mem_cons_self r rs)
    have ihs : ∀ r2 ∈ rs, lowerStr r2.1 ≠ e :=
      fun r2 h2 => hno r2 (List.mem_cons_of_mem r h2)
    by_cases hin : lowerStr r.1 ∈ EMOTION_LABELS
    · rw [if_pos hin, ih ihs, lookup_assocSet,
        if_neg (fun hk => hr (score_key_inj hk).symm)]
    · rw [if_neg hin, ih ihs]

theorem lookup_initScores (e : String) (he : e ∈ EMOTION_LABELS) :
    initScores.lookup ("score_" ++ e) = some (some (0 : ℚ)) := by
  fin_cases he <;> rfl

/-- C10.  `analyze_emotions` always returns a mapping with exactly the
seven keys `score_anger` … `score_surprise` in fixed order; on the
success path it is the fold of the classifier results over the default
row, where labels outside the fixed set are ignored (filtering them
away changes nothing) and any in-set label never written keeps the
default score `0.0`; on the null path every value is null. -/
theorem analyze_emotions_label_invariants (classifier : Classifier)
    (text : Option (List Char)) :
    ((analyze_emotions classifier text).map Prod.fst =
      EMOTION_LABELS.map (fun e => "score_" ++ e)) ∧
    (∀ t : List Char, ∀ results : List (String × ℚ),
      pyStrip t ≠ [] → classifier t = .ok results →
      analyze_emotions classifier (some t) = scoresFromResults results) ∧
    (∀ results : List (String × ℚ), scoresFromResults results =
      scoresFromResults (results.filter (fun r => lowerStr r.1 ∈ EMOTION_LABELS))) ∧
    (∀ results : List (String × ℚ), ∀ e : String, e ∈ EMOTION_LABELS →
      (∀ r ∈ results, lowerStr r.1 ≠ e) →
      (scoresFromResults results).lookup ("score_" ++ e) = some (some (0 : ℚ))) ∧
    (∀ p : String × Option ℚ, p ∈ nullScores → p.2 = none) := by
  have hnullkeys : nullScores.map Prod.fst = EMOTION_LABELS.map (fun e => "score_" ++ e) := by
    simp [nullScores, List.map_map, Function.comp]
  refine ⟨?_, ?_, ?_, ?_, ?_⟩
  · rw [analyze_emotions]
    cases text with
    | none => exact hnullkeys
    | some t =>
      rw [analyze_emotions_traced]
      by_cases h : (pyStrip t).isEmpty
      · simp only [h, if_true]
        exact hnullkeys
      · simp only [h, Bool.false_eq_true, if_false]
        cases hc : classifier t with
        | error u => simpa using hnullkeys
        | ok results => simpa using keys_scoresFromResults results
  · intro t results h hok
    rw [analyze_emotions, analyze_emotions_traced]
    simp [List.isEmpty_iff, h, hok]
  · intro results
    rw [scoresFromResults, scoresFromResults, scoresFold_filter]
  · intro results e he hno
    rw [scoresFromResults, lookup_scoresFold_of_no_write e results hno,
      lookup_initScores e he]
  · intro p hp
    simp only [nullScores, List.mem_map] at hp
    rcases hp with ⟨e, _, he⟩
    rw [← he]

theorem analyze_emotions_label_invariants_witness :
    pyStrip (String.toList "la la") ≠ [] ∧
    ((analyze_emotions stubClassifierJoy (some (String.toList "la la"))).map
        Prod.fst = EMOTION_LABELS.map (fun e => "score_" ++ e)) ∧
    analyze_emotions stubClassifierJoy (some (String.toList "la la")) =
      scoresFromResults [("JOY", (7 : ℚ) / 10), ("weird", (1 : ℚ) / 10)] ∧
    scoresFromResults [("JOY", (7 : ℚ) / 10), ("weird", (1 : ℚ) / 10)] =
      scoresFromResults ([("JOY", (7 : ℚ) / 10), ("weird", (1 : ℚ) / 10)].filter
        (fun r => lowerStr r.1 ∈ EMOTION_LABELS)) ∧
    (scoresFromResults [("JOY", (7 : ℚ) / 10), ("weird", (1 : ℚ) / 10)]).lookup
        ("score_" ++ "anger") = some (some (0 : ℚ)) :=
  ⟨by decide,
   (analyze_emotions_label_invariants stubClassifierJoy
     (some (String.toList "la la"))).1,
   (analyze_emotions_label_invariants stubClassifierJoy
     (some (String.toList "la la"))).2.1 _ _ (by decide) rfl,
   (analyze_emotions_label_invariants stubClassifierJoy none).2.2.1 _,
   (analyze_emotions_label_invariants stubClassifierJoy none).2.2.2.1 _ "anger"
     (by decide) (by
       intro r hr
       simp only [List.mem_cons, List.not_mem_nil, or_false] at hr
       rcases hr with h | h <;> subst h <;> decide)⟩
